import Mathlib

/-!
Upload service: resume links and the blob store.

A shallow embedding of `services/upload/service/upload_service.go`.

* The package-level handles `db` and `client` become explicit arguments: the
  document store is a value of type `Database` threaded through every call, the
  object-storage client is the function that answers a presign request.
* A Go `error` result is an `Option Error` (`none` is `nil`); a `(*T, error)` pair is
  an `Except Error T`.
* A run-time panic is an explicit outcome, so that no call is silently given a
  result it does not have.
-/

namespace UploadService

/-! ## Go values held in an `interface{}` -/

/-- A dynamic Go value as `encoding/json` sees it. Go has two kinds of number here:
`int n` is a value of one of the integer kinds (`int`, `int64`, `uint64`: below 2^64
in magnitude), `number x` is a finite `float64`, given by the exact value it holds;
the decoder only ever produces the second. The `fields` of an `object` are the entries
of a Go map. `unsupported` is a value the encoder rejects (a channel, a function, a
NaN). -/
inductive Value where
  | null
  | bool (b : Bool)
  | int (n : Int)
  | number (x : Rat)
  | string (s : String)
  | array (items : List Value)
  | object (fields : List (String × Value))
  | unsupported

/-- Go `error` values that occur in the service. -/
inductive Error where
  /-- the sentinel `database.ErrNotFound` -/
  | ErrNotFound
  /-- any other failure reported by the document store -/
  | StoreError (detail : String)
  /-- the value of `errors.New(text)` -/
  | New (text : String)
  /-- `json.Marshal` met a value it cannot encode -/
  | UnsupportedValue
  /-- `json.Unmarshal` met a document that does not fit the target type -/
  | UnmarshalType
  /-- failure of `request.Presign` -/
  | PresignError (detail : String)
  deriving DecidableEq

/-- Entries of a Go `map[string]interface{}`; the list order stands for one of the
iteration orders the run time may choose. -/
abbrev Entries := List (String × Value)

/-- A Go map variable: `none` is the nil map. -/
abbrev GoMap := Option Entries

/-- The keys of a map, in iteration order. -/
def keys (m : Entries) : List String := m.map Prod.fst

/-- Map read `m[key]` in its two-result form: the value bound to the key, if any. -/
def mapGet : Entries → String → Option Value
  | [], _ => none
  | (k, v) :: rest, key => if k = key then some v else mapGet rest key

/-- Map read `m[key]` in its one-result form: a missing key reads as the zero value
of `interface{}`, which is nil. -/
def mapIndex (m : Entries) (key : String) : Value := (mapGet m key).getD Value.null

/-- Map write `m[key] = v` on a map that is not nil: the binding of an existing key
is replaced, a new key is added. -/
def mapSet : Entries → String → Value → Entries
  | [], key, v => [(key, v)]
  | (k, w) :: rest, key, v => if k = key then (k, v) :: rest else (k, w) :: mapSet rest key v

mutual
/-- Whether `json.Marshal` accepts the value: no unsupported value at any depth. -/
def Value.encodable : Value → Bool
  | .unsupported => false
  | .array items => encodableList items
  | .object fields => encodableFields fields
  | _ => true
/-- All the elements of a slice are encodable. -/
def encodableList : List Value → Bool
  | [] => true
  | v :: vs => v.encodable && encodableList vs
/-- All the values of a map are encodable. -/
def encodableFields : List (String × Value) → Bool
  | [] => true
  | (_, v) :: fs => v.encodable && encodableFields fs
end

/-- The call `json.Marshal(v)`. The document written is represented by the value
tree it denotes, not by its bytes: `int n` stands for the decimal literal of `n`,
`number x` for the shortest literal that reads back as the same `float64`. -/
def Marshal (v : Value) : Except Error Value :=
  if v.encodable then .ok v else .error .UnsupportedValue

/-- The number of low bits a magnitude `m` below 2^64 loses to fit the 53-bit
significand of a `float64`: the least `e` with `m < 2 ^ (53 + e)`, searched from `e`
upwards in at most `fuel` steps. -/
def lostBits (m : Nat) : Nat → Nat → Nat
  | 0, e => e
  | fuel + 1, e => if m < 2 ^ (53 + e) then e else lostBits m fuel (e + 1)

/-- The `float64` nearest to the magnitude `m`, ties going to the even significand, as
`strconv.ParseFloat` reads a decimal literal. -/
def roundEven (m : Nat) : Nat :=
  let e := lostBits m 11 0
  let q := m / 2 ^ e
  let r := m % 2 ^ e
  if 2 ^ e < 2 * r ∨ (2 * r = 2 ^ e ∧ q % 2 = 1) then (q + 1) * 2 ^ e else q * 2 ^ e

/-- The `float64` the decoder makes of the literal of an integer. -/
def float64OfInt (n : Int) : Rat :=
  if n < 0 then -((roundEven n.natAbs : Nat) : Rat) else ((roundEven n.natAbs : Nat) : Rat)

mutual
/-- The Go value `json.Unmarshal` builds from a document when the target is an
`interface{}`: every number becomes a `float64`, an array a slice of decoded values,
an object a `map[string]interface{}` of decoded values. -/
def Value.decoded : Value → Value
  | .int n => .number (float64OfInt n)
  | .array items => .array (decodedList items)
  | .object fields => .object (decodedFields fields [])
  | .null => .null
  | .bool b => .bool b
  | .number x => .number x
  | .string s => .string s
  | .unsupported => .unsupported
/-- The elements of an array, decoded in order. -/
def decodedList : List Value → List Value
  | [] => []
  | v :: vs => v.decoded :: decodedList vs
/-- The members of an object, decoded and stored one after another into the map
`acc`; a key met again overwrites its earlier value. -/
def decodedFields : List (String × Value) → Entries → Entries
  | [], acc => acc
  | (k, v) :: fs, acc => decodedFields fs (mapSet acc k v.decoded)
end

/-- The call `json.Unmarshal(data, &m)` for a variable `m` of type
`map[string]interface{}`: the document `null` sets the map to nil, an object stores
its decoded members one after another into the map (allocating it when nil), and any
other document is a type error that leaves the map as it was. -/
def Unmarshal (data : Value) (m : GoMap) : GoMap × Option Error :=
  match data with
  | .null => (none, none)
  | .object fields => (some (decodedFields fields (m.getD [])), none)
  | _ => (m, some .UnmarshalType)

/-- The entries of a map, each value replaced by what the decoder makes of it. -/
def decodedEntries (m : Entries) : Entries := m.map (fun kv => (kv.1, kv.2.decoded))

/-- A map stored into an `interface{}` field: the nil map encodes as `null`. -/
def ofMap : GoMap → Value
  | none => .null
  | some m => .object m

/-! ## Data model -/

/-- The record `models.Blob`. -/
structure Blob where
  ID : String
  Data : Value

/-- The record `models.UserResume`. -/
structure UserResume where
  ID : String
  Resume : String
  deriving DecidableEq

/-! ## The document store -/

/-- Modelled from the spec: the handle `db` of the interface `database.Database`
(package `common/database`, not part of the source at hand). The service reads and
writes only the collection "blobstore"; its documents are kept in insertion order. -/
structure Database where
  blobstore : List Blob

/-- Availability of the store for one call: `none` when the store answers, `some
detail` when the call fails with a store error and does nothing. -/
abbrev Outage := Option String

/-- Modelled from the spec: `findOne(collection, selector) -> record | NotFoundError`
of `database.Database`, with the selector an equality match on `id`. The first
matching document is returned; the store is not changed. -/
def FindOne (db : Database) (outage : Outage) (id : String) : Database × Except Error Blob :=
  match outage with
  | some detail => (db, .error (.StoreError detail))
  | none =>
    match db.blobstore.find? (fun b => b.ID = id) with
    | some b => (db, .ok b)
    | none => (db, .error .ErrNotFound)

/-- Modelled from the spec: `insert(collection, record) -> ok | error` of
`database.Database`. The record is added to the collection. -/
def Insert (db : Database) (outage : Outage) (item : Blob) : Database × Option Error :=
  match outage with
  | some detail => (db, some (.StoreError detail))
  | none => ({ blobstore := db.blobstore ++ [item] }, none)

/-- The first document whose `id` matches is replaced by `item`. -/
def replaceFirst (id : String) (item : Blob) : List Blob → List Blob
  | [] => []
  | b :: rest => if b.ID = id then item :: rest else b :: replaceFirst id item rest

/-- Modelled from the spec: `update(collection, selector, record) -> ok | error` of
`database.Database`, with the selector an equality match on `id`. The matching
document is overwritten with the whole record; when no document matches the call
fails with a store error. -/
def Update (db : Database) (outage : Outage) (id : String) (item : Blob) :
    Database × Option Error :=
  match outage with
  | some detail => (db, some (.StoreError detail))
  | none =>
    if db.blobstore.any (fun b => b.ID = id) then
      ({ blobstore := replaceFirst id item db.blobstore }, none)
    else
      (db, some (.StoreError "not found"))

/-! ## The object store -/

/-- The operation of a request built by the S3 client: `client.GetObjectRequest`
builds a GET of the object, `client.PutObjectRequest` a PUT. -/
inductive Operation where
  | GetObject
  | PutObject
  deriving DecidableEq

/-- The request value built by `client.GetObjectRequest` or `client.PutObjectRequest`. -/
structure Request where
  Operation : Operation
  Bucket : String
  Key : String
  deriving DecidableEq

/-- One call `request.Presign(expire)` as the object store receives it; the duration
is in nanoseconds, the unit of `time.Duration`. -/
structure PresignCall where
  request : Request
  expire : Nat
  deriving DecidableEq

/-- The constant `time.Minute`. -/
def Minute : Nat := 60 * 1000000000

/-- The values of package `config` read by the link functions. -/
structure Config where
  IS_PRODUCTION : Bool
  S3_BUCKET : String

/-- The answer of the object store to a presign call. -/
abbrev Presigner := Request → Nat → Except Error String

/-! ## The service -/

/-- `GetUserResumeLink(id)`: the result, and the presign calls sent to the object
store. -/
def GetUserResumeLink (cfg : Config) (Presign : Presigner) (id : String) :
    Except Error UserResume × List PresignCall :=
  if cfg.IS_PRODUCTION then
    let request : Request :=
      { Operation := .GetObject, Bucket := cfg.S3_BUCKET, Key := "resumes/" ++ id ++ ".pdf" }
    match Presign request (15 * Minute) with
    | .error err => (.error err, [{ request := request, expire := 15 * Minute }])
    | .ok signed_url =>
      (.ok { ID := id, Resume := signed_url }, [{ request := request, expire := 15 * Minute }])
  else
    (.ok { ID := id, Resume := "/tmp/uploads/" ++ id ++ ".pdf" }, [])

/-- `GetUpdateUserResumeLink(id)`: the result, and the presign calls sent to the
object store. -/
def GetUpdateUserResumeLink (cfg : Config) (Presign : Presigner) (id : String) :
    Except Error UserResume × List PresignCall :=
  if cfg.IS_PRODUCTION then
    let request : Request :=
      { Operation := .PutObject, Bucket := cfg.S3_BUCKET, Key := "resumes/" ++ id ++ ".pdf" }
    match Presign request (15 * Minute) with
    | .error err => (.error err, [{ request := request, expire := 15 * Minute }])
    | .ok signed_url =>
      (.ok { ID := id, Resume := signed_url }, [{ request := request, expire := 15 * Minute }])
  else
    (.ok { ID := id, Resume := "/tmp/uploads/" ++ id ++ ".pdf" }, [])

/-- `GetBlob(id)`. -/
def GetBlob (db : Database) (outage : Outage) (id : String) : Database × Except Error Blob :=
  match FindOne db outage id with
  | (db₁, .error err) => (db₁, .error err)
  | (db₁, .ok blob) => (db₁, .ok blob)

/-- The `error` half of a `(*T, error)` result. -/
def errOf {α : Type} : Except Error α → Option Error
  | .ok _ => none
  | .error e => some e

/-- `CreateBlob(blob)`; `o₁` is the availability of the store for the lookup and `o₂`
for the insert. -/
def CreateBlob (db : Database) (o₁ o₂ : Outage) (blob : Blob) : Database × Option Error :=
  match GetBlob db o₁ blob.ID with
  | (db₁, r) =>
    let err := errOf r
    if err ≠ some .ErrNotFound then
      if err ≠ none then (db₁, err) else (db₁, some (.New "Blob already exists."))
    else
      Insert db₁ o₂ blob

/-- `UpdateBlob(blob)`. -/
def UpdateBlob (db : Database) (outage : Outage) (blob : Blob) : Database × Option Error :=
  Update db outage blob.ID blob

/-- How a call ends: it returns its `error` result, or the run time panics. -/
inductive Outcome where
  | returned (err : Option Error)
  | panicked
  deriving DecidableEq

/-- The loop `for key := range blob_data { blob_full_data[key] = blob_data[key] }`
run over the keys still to visit; `none` is the panic of a write to a nil map. -/
def rangeLoop (blob_data : Entries) : List String → GoMap → Option GoMap
  | [], blob_full_data => some blob_full_data
  | _ :: _, none => none
  | key :: rest, some full => rangeLoop blob_data rest (some (mapSet full key (mapIndex blob_data key)))

/-- `UpdatePartialBlob(blob)`; `o₁` is the availability of the store for the lookup
and `o₂` for the update. -/
def UpdatePartialBlob (db : Database) (o₁ o₂ : Outage) (blob : Blob) : Database × Outcome :=
  match GetBlob db o₁ blob.ID with
  | (db₁, .error _) => (db₁, .returned (some (.New "Blob does not exist.")))
  | (db₁, .ok blob_full) =>
    match Marshal blob_full.Data with
    | .error err1 => (db₁, .returned (some err1))
    | .ok json1 =>
      let blob_full_data := (Unmarshal json1 (some [])).1
      match Marshal blob.Data with
      | .error err2 => (db₁, .returned (some err2))
      | .ok json2 =>
        let blob_data := (Unmarshal json2 (some [])).1
        match rangeLoop (blob_data.getD []) (keys (blob_data.getD [])) blob_full_data with
        | none => (db₁, .panicked)
        | some merged =>
          let blob_data_update : Blob := { ID := blob.ID, Data := ofMap merged }
          match Update db₁ o₂ blob.ID blob_data_update with
          | (db₂, err) => (db₂, .returned err)

/-- The top-level keys of a blob's data; data that is not a mapping has none. -/
def dataKeys : Value → List String
  | .object fields => keys fields
  | _ => []

/-- At most one record per id in the collection. -/
def UniqueIds (db : Database) : Prop := (db.blobstore.map Blob.ID).Nodup

instance (db : Database) : Decidable (UniqueIds db) :=
  inferInstanceAs (Decidable (db.blobstore.map Blob.ID).Nodup)


/-! ## Maps -/

theorem mapGet_mapSet_same (m : Entries) (k : String) (v : Value) :
    mapGet (mapSet m k v) k = some v := by
  induction m with
  | nil => simp [mapSet, mapGet]
  | cons e rest ih =>
    obtain ⟨k₀, w⟩ := e
    by_cases h : k₀ = k
    · simp [mapSet, mapGet, h]
    · simp [mapSet, mapGet, h, ih]

theorem mapGet_mapSet_other (m : Entries) (k key : String) (v : Value) (hne : k ≠ key) :
    mapGet (mapSet m k v) key = mapGet m key := by
  induction m with
  | nil => simp [mapSet, mapGet, hne]
  | cons e rest ih =>
    obtain ⟨k₀, w⟩ := e
    by_cases h : k₀ = k
    · subst h
      simp [mapSet, mapGet, hne]
    · by_cases h2 : k₀ = key
      · subst h2
        simp [mapSet, mapGet, h]
      · simp [mapSet, mapGet, h, h2, ih]

theorem keys_mapSet (m : Entries) (k : String) (v : Value) :
    keys (mapSet m k v) = if k ∈ keys m then keys m else keys m ++ [k] := by
  induction m with
  | nil => simp [mapSet, keys]
  | cons e rest ih =>
    obtain ⟨k₀, w⟩ := e
    by_cases h : k₀ = k
    · simp [mapSet, keys, h]
    · have h' : ¬ k = k₀ := fun e => h e.symm
      simp only [keys] at ih
      by_cases hm : k ∈ List.map Prod.fst rest
      · simp [mapSet, keys, h, h', hm, ih]
      · simp [mapSet, keys, h, h', hm, ih]

theorem mem_keys_mapSet (m : Entries) (k key : String) (v : Value) :
    key ∈ keys (mapSet m k v) ↔ key = k ∨ key ∈ keys m := by
  rw [keys_mapSet]
  by_cases hm : k ∈ keys m
  · simp only [hm, if_true]
    constructor
    · exact Or.inr
    · rintro (rfl | h)
      · exact hm
      · exact h
  · simp only [hm, if_false, List.mem_append, List.mem_singleton]
    tauto

theorem nodup_keys_mapSet (m : Entries) (k : String) (v : Value) (h : (keys m).Nodup) :
    (keys (mapSet m k v)).Nodup := by
  rw [keys_mapSet]
  by_cases hm : k ∈ keys m
  · simpa [hm] using h
  · simp only [hm, if_false]
    rw [List.nodup_append]
    refine ⟨h, List.nodup_singleton k, ?_⟩
    intro a ha hb
    rw [List.mem_singleton] at hb
    exact hm (hb ▸ ha)

theorem mapGet_eq_none_iff (m : Entries) (key : String) :
    mapGet m key = none ↔ key ∉ keys m := by
  induction m with
  | nil => simp [mapGet, keys]
  | cons e rest ih =>
    obtain ⟨k₀, w⟩ := e
    simp only [keys] at ih
    by_cases h : k₀ = key
    · simp [mapGet, keys, h]
    · have h' : ¬ key = k₀ := fun e => h e.symm
      simp [mapGet, keys, h, h', ih]

theorem mapSet_fresh (m : Entries) (k : String) (v : Value) (h : k ∉ keys m) :
    mapSet m k v = m ++ [(k, v)] := by
  induction m with
  | nil => simp [mapSet]
  | cons e rest ih =>
    obtain ⟨k₀, w⟩ := e
    simp only [keys, List.map_cons, List.mem_cons, not_or] at h
    have h' : ¬ k₀ = k := fun e => h.1 e.symm
    simp only [mapSet, h', if_false, List.cons_append]
    rw [ih h.2]

theorem decodedFields_fresh (fields acc : Entries) (h : (keys (acc ++ fields)).Nodup) :
    decodedFields fields acc = acc ++ decodedEntries fields := by
  induction fields generalizing acc with
  | nil => simp [decodedFields, decodedEntries]
  | cons e rest ih =>
    obtain ⟨k, v⟩ := e
    have hk : k ∉ keys acc := by
      simp only [keys, List.map_append, List.map_cons] at h
      rw [List.nodup_append] at h
      intro hmem
      exact h.2.2 hmem (List.mem_cons_self _ _)
    simp only [decodedFields]
    rw [mapSet_fresh acc k _ hk, ih]
    · simp [decodedEntries]
    · simpa [keys] using h

theorem keys_decodedEntries (m : Entries) : keys (decodedEntries m) = keys m := by
  simp [keys, decodedEntries, Function.comp_def]

theorem mapGet_decodedEntries (m : Entries) (key : String) :
    mapGet (decodedEntries m) key = (mapGet m key).map Value.decoded := by
  induction m with
  | nil => simp [decodedEntries, mapGet]
  | cons e rest ih =>
    obtain ⟨k, v⟩ := e
    simp only [decodedEntries, List.map_cons, mapGet] at ih ⊢
    by_cases h : k = key
    · simp [h]
    · simp [h, ih]

theorem rangeLoop_some (blob_data : Entries) (ks : List String) (full : Entries) :
    rangeLoop blob_data ks (some full)
      = some (some (ks.foldl (fun acc k => mapSet acc k (mapIndex blob_data k)) full)) := by
  induction ks generalizing full with
  | nil => simp [rangeLoop]
  | cons k rest ih => simp [rangeLoop, ih]

theorem rangeLoop_nil_keys (blob_data : Entries) (full : GoMap) :
    rangeLoop blob_data [] full = some full := by
  cases full <;> simp [rangeLoop]

theorem rangeLoop_none (blob_data : Entries) (k : String) (ks : List String) :
    rangeLoop blob_data (k :: ks) none = none := by
  simp [rangeLoop]

theorem mem_keys_foldl_assign (src : Entries) (ks : List String) (full : Entries) (key : String) :
    key ∈ keys (ks.foldl (fun acc k => mapSet acc k (mapIndex src k)) full)
      ↔ key ∈ keys full ∨ key ∈ ks := by
  induction ks generalizing full with
  | nil => simp
  | cons k rest ih =>
    simp only [List.foldl_cons, ih, mem_keys_mapSet, List.mem_cons]
    tauto

theorem nodup_keys_foldl_assign (src : Entries) (ks : List String) (full : Entries)
    (h : (keys full).Nodup) :
    (keys (ks.foldl (fun acc k => mapSet acc k (mapIndex src k)) full)).Nodup := by
  induction ks generalizing full with
  | nil => simpa using h
  | cons k rest ih =>
    simp only [List.foldl_cons]
    exact ih _ (nodup_keys_mapSet full k _ h)

theorem mapGet_foldl_assign_of_not_mem (src : Entries) (ks : List String) (full : Entries)
    (key : String) (h : key ∉ ks) :
    mapGet (ks.foldl (fun acc k => mapSet acc k (mapIndex src k)) full) key = mapGet full key := by
  induction ks generalizing full with
  | nil => simp
  | cons k rest ih =>
    simp only [List.mem_cons, not_or] at h
    simp only [List.foldl_cons]
    rw [ih _ h.2, mapGet_mapSet_other full k key _ (fun e => h.1 e.symm)]

theorem mapGet_foldl_assign_of_mem (src : Entries) (ks : List String) (full : Entries)
    (key : String) (h : key ∈ ks) :
    mapGet (ks.foldl (fun acc k => mapSet acc k (mapIndex src k)) full) key
      = some (mapIndex src key) := by
  induction ks generalizing full with
  | nil => simp at h
  | cons k rest ih =>
    simp only [List.foldl_cons]
    by_cases hr : key ∈ rest
    · exact ih _ hr
    · have hk : key = k := by
        rcases List.mem_cons.mp h with h | h
        · exact h
        · exact absurd h hr
      subst hk
      rw [mapGet_foldl_assign_of_not_mem src rest _ key hr, mapGet_mapSet_same]

theorem mapIndex_of_mem_keys (m : Entries) (key : String) (h : key ∈ keys m) :
    some (mapIndex m key) = mapGet m key := by
  unfold mapIndex
  cases hg : mapGet m key with
  | none => exact absurd h ((mapGet_eq_none_iff m key).mp hg)
  | some v => rfl

/-! ## The collection -/

theorem map_ID_replaceFirst (id : String) (item : Blob) (hid : item.ID = id) (l : List Blob) :
    (replaceFirst id item l).map Blob.ID = l.map Blob.ID := by
  induction l with
  | nil => simp [replaceFirst]
  | cons b rest ih =>
    by_cases h : b.ID = id
    · simp [replaceFirst, h, hid]
    · simp [replaceFirst, h, ih]

theorem find?_replaceFirst_same (id : String) (item : Blob) (hid : item.ID = id) (l : List Blob)
    (hany : l.any (fun b => b.ID = id) = true) :
    (replaceFirst id item l).find? (fun b => b.ID = id) = some item := by
  induction l with
  | nil => simp at hany
  | cons b rest ih =>
    by_cases h : b.ID = id
    · simp [replaceFirst, h, hid]
    · have hrest : rest.any (fun b => b.ID = id) = true := by
        simpa [h] using hany
      simp [replaceFirst, h, ih hrest]

theorem find?_replaceFirst_other (id j : String) (item : Blob) (hid : item.ID = id) (hj : j ≠ id)
    (l : List Blob) :
    (replaceFirst id item l).find? (fun b => b.ID = j) = l.find? (fun b => b.ID = j) := by
  induction l with
  | nil => simp [replaceFirst]
  | cons b rest ih =>
    by_cases h : b.ID = id
    · have h1 : decide (item.ID = j) = false := decide_eq_false (fun e => hj (e.symm.trans hid))
      have h2 : decide (b.ID = j) = false := decide_eq_false (fun e => hj (e.symm.trans h))
      rw [replaceFirst, if_pos h, List.find?_cons, List.find?_cons, h1, h2]
    · rw [replaceFirst, if_neg h, List.find?_cons, List.find?_cons, ih]

theorem find?_append_singleton_other (j : String) (item : Blob) (hj : j ≠ item.ID)
    (l : List Blob) :
    (l ++ [item]).find? (fun b => b.ID = j) = l.find? (fun b => b.ID = j) := by
  have h1 : ¬ item.ID = j := fun e => hj e.symm
  induction l with
  | nil => simp [h1]
  | cons b rest ih =>
    by_cases h2 : b.ID = j
    · simp [h2]
    · simp [h2, ih]

theorem find?_append_singleton_new (item : Blob) (l : List Blob)
    (hnone : l.find? (fun b => b.ID = item.ID) = none) :
    (l ++ [item]).find? (fun b => b.ID = item.ID) = some item := by
  induction l with
  | nil => simp
  | cons b rest ih =>
    by_cases h2 : b.ID = item.ID
    · simp [h2] at hnone
    · have hrest : rest.find? (fun b => b.ID = item.ID) = none := by
        simpa [h2] using hnone
      simp [h2, ih hrest]

theorem not_mem_ids_of_find?_none (id : String) (l : List Blob)
    (hnone : l.find? (fun b => b.ID = id) = none) : id ∉ l.map Blob.ID := by
  intro hmem
  rw [List.mem_map] at hmem
  obtain ⟨b, hb, hbid⟩ := hmem
  have := List.find?_eq_none.mp hnone b hb
  simp [hbid] at this


/-! ## Store calls -/

theorem GetBlob_eq_FindOne (db : Database) (o : Outage) (id : String) :
    GetBlob db o id = FindOne db o id := by
  unfold GetBlob
  rcases h : FindOne db o id with ⟨db₁, r⟩
  cases r <;> rfl

theorem FindOne_fst (db : Database) (o : Outage) (id : String) : (FindOne db o id).1 = db := by
  unfold FindOne
  cases o with
  | some d => rfl
  | none =>
    cases db.blobstore.find? (fun b => b.ID = id) <;> rfl

theorem GetBlob_fst (db : Database) (o : Outage) (id : String) : (GetBlob db o id).1 = db := by
  rw [GetBlob_eq_FindOne, FindOne_fst]

theorem GetBlob_none_snd (db : Database) (id : String) :
    (GetBlob db none id).2
      = match db.blobstore.find? (fun b => b.ID = id) with
        | some b => .ok b
        | none => .error .ErrNotFound := by
  rw [GetBlob_eq_FindOne]
  unfold FindOne
  cases db.blobstore.find? (fun b => b.ID = id) <;> rfl

theorem GetBlob_snd_congr (db db' : Database) (o : Outage) (j : String)
    (h : db'.blobstore.find? (fun b => b.ID = j) = db.blobstore.find? (fun b => b.ID = j)) :
    (GetBlob db' o j).2 = (GetBlob db o j).2 := by
  rw [GetBlob_eq_FindOne, GetBlob_eq_FindOne]
  unfold FindOne
  cases o with
  | some d => rfl
  | none =>
    simp only [h]
    cases db.blobstore.find? (fun b => b.ID = j) <;> rfl

theorem Update_cases (db : Database) (o : Outage) (id : String) (item : Blob) :
    ((Update db o id item).1 = db ∧ (Update db o id item).2 ≠ none)
    ∨ (o = none ∧ db.blobstore.any (fun b => b.ID = id) = true
        ∧ Update db o id item = ({ blobstore := replaceFirst id item db.blobstore }, none)) := by
  unfold Update
  cases o with
  | some d => left; simp
  | none =>
    by_cases h : db.blobstore.any (fun b => b.ID = id) = true
    · right
      simp [h]
    · left
      simp [h]

theorem UpdatePartialBlob_cases (db : Database) (o₁ o₂ : Outage) (blob : Blob) :
    ((UpdatePartialBlob db o₁ o₂ blob).1 = db
      ∧ (UpdatePartialBlob db o₁ o₂ blob).2 ≠ .returned none)
    ∨ ∃ item : Blob, item.ID = blob.ID
        ∧ UpdatePartialBlob db o₁ o₂ blob
            = ((Update db o₂ blob.ID item).1, .returned (Update db o₂ blob.ID item).2) := by
  unfold UpdatePartialBlob
  have hfst := GetBlob_fst db o₁ blob.ID
  rcases hget : GetBlob db o₁ blob.ID with ⟨db₁, r⟩
  rw [hget] at hfst
  simp only at hfst
  subst hfst
  cases r with
  | error e => left; simp
  | ok blob_full =>
    simp only
    cases Marshal blob_full.Data with
    | error err1 => left; simp
    | ok json1 =>
      simp only
      cases Marshal blob.Data with
      | error err2 => left; simp
      | ok json2 =>
        simp only
        cases rangeLoop ((Unmarshal json2 (some [])).1.getD [])
            (keys ((Unmarshal json2 (some [])).1.getD [])) (Unmarshal json1 (some [])).1 with
        | none => left; simp
        | some merged =>
          right
          exact ⟨{ ID := blob.ID, Data := ofMap merged }, rfl, rfl⟩


/-! ## Resume links -/

/-- C9: in development mode (production flag false) both link functions succeed for
every id, send nothing to the object store, and return the same descriptor: the id
and the local path "/tmp/uploads/" ++ id ++ ".pdf". -/
theorem resumeLinks_development (cfg : Config) (Presign : Presigner) (id : String)
    (hdev : cfg.IS_PRODUCTION = false) :
    GetUserResumeLink cfg Presign id
        = (.ok { ID := id, Resume := "/tmp/uploads/" ++ id ++ ".pdf" }, [])
      ∧ GetUpdateUserResumeLink cfg Presign id
        = (.ok { ID := id, Resume := "/tmp/uploads/" ++ id ++ ".pdf" }, []) := by
  simp [GetUserResumeLink, GetUpdateUserResumeLink, hdev]

/-- Witness: id "u1" gives "/tmp/uploads/u1.pdf" from both functions. -/
theorem resumeLinks_development_witness :
    GetUserResumeLink { IS_PRODUCTION := false, S3_BUCKET := "bucket" }
        (fun _ _ => .error (.PresignError "offline")) "u1"
        = (.ok { ID := "u1", Resume := "/tmp/uploads/u1.pdf" }, [])
      ∧ GetUpdateUserResumeLink { IS_PRODUCTION := false, S3_BUCKET := "bucket" }
        (fun _ _ => .error (.PresignError "offline")) "u1"
        = (.ok { ID := "u1", Resume := "/tmp/uploads/u1.pdf" }, []) :=
  resumeLinks_development { IS_PRODUCTION := false, S3_BUCKET := "bucket" }
    (fun _ _ => .error (.PresignError "offline")) "u1" rfl

/-- C8: in production mode, for every id, the two link functions each send exactly one
presign call to the object store, with the same bucket, the same key
"resumes/" ++ id ++ ".pdf" and the same validity of 15 minutes, and differing only in
the operation: a GET for GetUserResumeLink, a PUT for GetUpdateUserResumeLink. When the
presign succeeds the descriptor returned holds the id and the URL of the object store. -/
theorem resumeLinks_production (cfg : Config) (Presign : Presigner) (id : String)
    (hprod : cfg.IS_PRODUCTION = true) :
    (GetUserResumeLink cfg Presign id).2
        = [{ request := { Operation := .GetObject, Bucket := cfg.S3_BUCKET,
                          Key := "resumes/" ++ id ++ ".pdf" },
             expire := 15 * Minute }]
      ∧ (GetUpdateUserResumeLink cfg Presign id).2
        = [{ request := { Operation := .PutObject, Bucket := cfg.S3_BUCKET,
                          Key := "resumes/" ++ id ++ ".pdf" },
             expire := 15 * Minute }]
      ∧ (∀ url : String,
          Presign { Operation := .GetObject, Bucket := cfg.S3_BUCKET,
                    Key := "resumes/" ++ id ++ ".pdf" } (15 * Minute) = .ok url →
          (GetUserResumeLink cfg Presign id).1 = .ok { ID := id, Resume := url })
      ∧ (∀ url : String,
          Presign { Operation := .PutObject, Bucket := cfg.S3_BUCKET,
                    Key := "resumes/" ++ id ++ ".pdf" } (15 * Minute) = .ok url →
          (GetUpdateUserResumeLink cfg Presign id).1 = .ok { ID := id, Resume := url }) := by
  refine ⟨?_, ?_, ?_, ?_⟩
  · simp only [GetUserResumeLink, hprod, if_true]
    cases Presign _ _ <;> rfl
  · simp only [GetUpdateUserResumeLink, hprod, if_true]
    cases Presign _ _ <;> rfl
  · intro url hurl
    simp only [GetUserResumeLink, hprod, if_true, hurl]
  · intro url hurl
    simp only [GetUpdateUserResumeLink, hprod, if_true, hurl]

/-- Witness: bucket "resumes-bucket", id "u1", and an object store that answers
a GET with "https://get" and a PUT with "https://put". -/
theorem resumeLinks_production_witness :
    (GetUserResumeLink { IS_PRODUCTION := true, S3_BUCKET := "resumes-bucket" }
        (fun r _ => match r.Operation with
          | .GetObject => .ok "https://get"
          | .PutObject => .ok "https://put") "u1").2
        = [{ request := { Operation := .GetObject, Bucket := "resumes-bucket",
                          Key := "resumes/u1.pdf" },
             expire := 900000000000 }]
      ∧ (GetUpdateUserResumeLink { IS_PRODUCTION := true, S3_BUCKET := "resumes-bucket" }
        (fun r _ => match r.Operation with
          | .GetObject => .ok "https://get"
          | .PutObject => .ok "https://put") "u1").2
        = [{ request := { Operation := .PutObject, Bucket := "resumes-bucket",
                          Key := "resumes/u1.pdf" },
             expire := 900000000000 }]
      ∧ (GetUserResumeLink { IS_PRODUCTION := true, S3_BUCKET := "resumes-bucket" }
        (fun r _ => match r.Operation with
          | .GetObject => .ok "https://get"
          | .PutObject => .ok "https://put") "u1").1
        = .ok { ID := "u1", Resume := "https://get" }
      ∧ (GetUpdateUserResumeLink { IS_PRODUCTION := true, S3_BUCKET := "resumes-bucket" }
        (fun r _ => match r.Operation with
          | .GetObject => .ok "https://get"
          | .PutObject => .ok "https://put") "u1").1
        = .ok { ID := "u1", Resume := "https://put" } :=
  have h := resumeLinks_production { IS_PRODUCTION := true, S3_BUCKET := "resumes-bucket" }
    (fun r _ => match r.Operation with
      | .GetObject => .ok "https://get"
      | .PutObject => .ok "https://put") "u1" rfl
  ⟨h.1, h.2.1, h.2.2.1 "https://get" rfl, h.2.2.2 "https://put" rfl⟩


/-! ## Blob store: failure paths -/

theorem UpdatePartialBlob_lookup_error (db : Database) (o₁ o₂ : Outage) (blob : Blob)
    (e : Error) (hfail : (GetBlob db o₁ blob.ID).2 = .error e) :
    UpdatePartialBlob db o₁ o₂ blob = (db, .returned (some (.New "Blob does not exist."))) := by
  have hfst := GetBlob_fst db o₁ blob.ID
  unfold UpdatePartialBlob
  rcases hget : GetBlob db o₁ blob.ID with ⟨db₁, r⟩
  rw [hget] at hfst hfail
  simp only at hfst hfail
  subst hfst
  subst hfail
  rfl

/-- C2: for every store state and every incoming blob, if the initial lookup of
blob.ID fails for whatever reason, UpdatePartialBlob returns the fixed error
"Blob does not exist." and leaves the store exactly as it was. -/
theorem updatePartialBlob_lookup_failure (db : Database) (o₁ o₂ : Outage) (blob : Blob)
    (e : Error) (hfail : (GetBlob db o₁ blob.ID).2 = .error e) :
    UpdatePartialBlob db o₁ o₂ blob = (db, .returned (some (.New "Blob does not exist."))) :=
  UpdatePartialBlob_lookup_error db o₁ o₂ blob e hfail

/-- Witness: no record with the id, and a store outage during the lookup. -/
theorem updatePartialBlob_lookup_failure_witness :
    UpdatePartialBlob { blobstore := [{ ID := "x", Data := .object [("a", .number 1)] }] }
        none none { ID := "y", Data := .object [("b", .number 2)] }
        = ({ blobstore := [{ ID := "x", Data := .object [("a", .number 1)] }] },
           .returned (some (.New "Blob does not exist.")))
      ∧ UpdatePartialBlob { blobstore := [{ ID := "x", Data := .object [("a", .number 1)] }] }
        (some "connection reset") none { ID := "x", Data := .object [("b", .number 2)] }
        = ({ blobstore := [{ ID := "x", Data := .object [("a", .number 1)] }] },
           .returned (some (.New "Blob does not exist."))) :=
  ⟨updatePartialBlob_lookup_failure
      { blobstore := [{ ID := "x", Data := .object [("a", .number 1)] }] }
      none none { ID := "y", Data := .object [("b", .number 2)] } .ErrNotFound rfl,
   updatePartialBlob_lookup_failure
      { blobstore := [{ ID := "x", Data := .object [("a", .number 1)] }] }
      (some "connection reset") none { ID := "x", Data := .object [("b", .number 2)] }
      (.StoreError "connection reset") rfl⟩

/-- C3: for every store state and every blob B, if the lookup of B.ID inside CreateBlob
does not answer NotFound, CreateBlob leaves the store exactly as it was (no insert);
it returns "Blob already exists." when a record was found, and the error of the lookup
itself when the lookup failed otherwise. -/
theorem createBlob_lookup_not_notFound (db : Database) (o₁ o₂ : Outage) (B : Blob)
    (hlookup : (GetBlob db o₁ B.ID).2 ≠ .error .ErrNotFound) :
    (CreateBlob db o₁ o₂ B).1 = db
      ∧ (∀ found : Blob, (GetBlob db o₁ B.ID).2 = .ok found →
          (CreateBlob db o₁ o₂ B).2 = some (.New "Blob already exists."))
      ∧ (∀ e : Error, (GetBlob db o₁ B.ID).2 = .error e →
          (CreateBlob db o₁ o₂ B).2 = some e) := by
  have hfst := GetBlob_fst db o₁ B.ID
  unfold CreateBlob
  rcases hget : GetBlob db o₁ B.ID with ⟨db₁, r⟩
  rw [hget] at hfst hlookup
  simp only at hfst hlookup
  subst hfst
  cases r with
  | ok found => simp [errOf]
  | error e =>
    have hne : e ≠ .ErrNotFound := fun h => hlookup (by rw [h])
    simp [errOf, hne]

/-- Witness: a record with the id exists, so the lookup answers the record. -/
theorem createBlob_lookup_not_notFound_witness :
    (CreateBlob { blobstore := [{ ID := "x", Data := .object [("a", .number 1)] }] }
        none none { ID := "x", Data := .null }).1
        = { blobstore := [{ ID := "x", Data := .object [("a", .number 1)] }] }
      ∧ (CreateBlob { blobstore := [{ ID := "x", Data := .object [("a", .number 1)] }] }
        none none { ID := "x", Data := .null }).2 = some (.New "Blob already exists.") :=
  have h := createBlob_lookup_not_notFound
    { blobstore := [{ ID := "x", Data := .object [("a", .number 1)] }] }
    none none { ID := "x", Data := .null } (fun h => by cases h)
  ⟨h.1, h.2.1 { ID := "x", Data := .object [("a", .number 1)] } rfl⟩

/-! ## Blob store: writes -/

/-- C4: for every store state and every blob B, when CreateBlob(B) returns no error, a
GetBlob(B.ID) issued right afterwards on an answering store succeeds and returns B
itself, same id and same data. -/
theorem createBlob_then_getBlob (db db' : Database) (o₁ o₂ : Outage) (B : Blob)
    (hok : CreateBlob db o₁ o₂ B = (db', none)) :
    GetBlob db' none B.ID = (db', .ok B) := by
  rw [GetBlob_eq_FindOne] at *
  unfold CreateBlob at hok
  rw [GetBlob_eq_FindOne] at hok
  unfold FindOne at hok
  cases o₁ with
  | some d => simp [errOf] at hok
  | none =>
    simp only at hok
    cases hfind : db.blobstore.find? (fun b => b.ID = B.ID) with
    | some b => simp [hfind, errOf] at hok
    | none =>
      simp only [hfind, errOf, ne_eq, not_true_eq_false, if_false] at hok
      unfold Insert at hok
      cases o₂ with
      | some d => simp at hok
      | none =>
        simp only [Prod.mk.injEq, and_true] at hok
        subst hok
        unfold FindOne
        simp only
        rw [find?_append_singleton_new B db.blobstore hfind]

/-- Witness: creating "y" next to an existing "x". -/
theorem createBlob_then_getBlob_witness :
    GetBlob { blobstore := [{ ID := "x", Data := .null },
                            { ID := "y", Data := .object [("a", .number 1)] }] } none "y"
      = ({ blobstore := [{ ID := "x", Data := .null },
                         { ID := "y", Data := .object [("a", .number 1)] }] },
         .ok { ID := "y", Data := .object [("a", .number 1)] }) :=
  createBlob_then_getBlob { blobstore := [{ ID := "x", Data := .null }] } _ none none
    { ID := "y", Data := .object [("a", .number 1)] } rfl

/-- C5: for every store state holding a record with id i and every blob B' with id i,
after a successful UpdateBlob(B') the record stored under i is B' itself, so its data
is exactly the data of B': a key of the old data that is absent from the data of B' is
absent from the stored data. -/
theorem updateBlob_replaces (db db' : Database) (o : Outage) (B' old : Blob)
    (hold : db.blobstore.find? (fun b => b.ID = B'.ID) = some old)
    (hok : UpdateBlob db o B' = (db', none)) :
    ∃ stored : Blob, GetBlob db' none B'.ID = (db', .ok stored)
      ∧ stored.ID = B'.ID ∧ stored.Data = B'.Data
      ∧ ∀ k : String, k ∈ dataKeys old.Data → k ∉ dataKeys B'.Data →
          k ∉ dataKeys stored.Data := by
  refine ⟨B', ?_, rfl, rfl, fun k _ hk => hk⟩
  unfold UpdateBlob at hok
  rcases Update_cases db o B'.ID B' with ⟨_, hne⟩ | ⟨_, hany, hupd⟩
  · rw [hok] at hne
    exact absurd rfl hne
  · rw [hupd] at hok
    simp only [Prod.mk.injEq, and_true] at hok
    subst hok
    rw [GetBlob_eq_FindOne]
    unfold FindOne
    simp only
    rw [find?_replaceFirst_same B'.ID B' rfl db.blobstore hany]

/-- Witness: the old data has keys a and b, the new data only b. -/
theorem updateBlob_replaces_witness :
    ∃ stored : Blob,
      GetBlob { blobstore := [{ ID := "x", Data := .object [("b", .number 3)] }] } none "x"
        = ({ blobstore := [{ ID := "x", Data := .object [("b", .number 3)] }] }, .ok stored)
      ∧ stored.ID = "x" ∧ stored.Data = .object [("b", .number 3)]
      ∧ ∀ k : String, k ∈ ["a", "b"] → k ∉ ["b"] → k ∉ dataKeys stored.Data :=
  updateBlob_replaces
    { blobstore := [{ ID := "x", Data := .object [("a", .number 1), ("b", .number 2)] }] } _
    none { ID := "x", Data := .object [("b", .number 3)] }
    { ID := "x", Data := .object [("a", .number 1), ("b", .number 2)] } rfl rfl


/-! ## Blob store: invariant and frame -/

theorem CreateBlob_cases (db : Database) (o₁ o₂ : Outage) (B : Blob) :
    (CreateBlob db o₁ o₂ B).1 = db
    ∨ (db.blobstore.find? (fun b => b.ID = B.ID) = none
        ∧ (CreateBlob db o₁ o₂ B).1 = { blobstore := db.blobstore ++ [B] }) := by
  unfold CreateBlob
  rw [GetBlob_eq_FindOne]
  unfold FindOne
  cases o₁ with
  | some d => left; simp [errOf]
  | none =>
    simp only
    cases hfind : db.blobstore.find? (fun b => b.ID = B.ID) with
    | some b => left; simp [errOf]
    | none =>
      simp only [errOf, ne_eq, not_true_eq_false, if_false]
      unfold Insert
      cases o₂ with
      | some d => left; rfl
      | none => right; exact ⟨trivial, rfl⟩

theorem UniqueIds_Update (db : Database) (o : Outage) (id : String) (item : Blob)
    (hid : item.ID = id) (h : UniqueIds db) : UniqueIds (Update db o id item).1 := by
  rcases Update_cases db o id item with ⟨hsame, _⟩ | ⟨_, _, hupd⟩
  · rw [hsame]; exact h
  · rw [hupd]
    unfold UniqueIds
    simp only
    rw [map_ID_replaceFirst id item hid]
    exact h

theorem Update_find?_other (db : Database) (o : Outage) (id j : String) (item : Blob)
    (hid : item.ID = id) (hj : j ≠ id) :
    (Update db o id item).1.blobstore.find? (fun b => b.ID = j)
      = db.blobstore.find? (fun b => b.ID = j) := by
  rcases Update_cases db o id item with ⟨hsame, _⟩ | ⟨_, _, hupd⟩
  · rw [hsame]
  · rw [hupd]
    exact find?_replaceFirst_other id j item hid hj db.blobstore

/-- C7: at most one record per id is an invariant of the blob operations run one after
another: from a store that satisfies it, the store left by CreateBlob, UpdateBlob,
UpdatePartialBlob or GetBlob satisfies it again, whether the call succeeded, failed or
panicked. -/
theorem uniqueIds_preserved (db : Database) (o₁ o₂ : Outage) (blob : Blob) (id : String)
    (hinv : UniqueIds db) :
    UniqueIds (CreateBlob db o₁ o₂ blob).1
      ∧ UniqueIds (UpdateBlob db o₁ blob).1
      ∧ UniqueIds (UpdatePartialBlob db o₁ o₂ blob).1
      ∧ UniqueIds (GetBlob db o₁ id).1 := by
  refine ⟨?_, ?_, ?_, ?_⟩
  · rcases CreateBlob_cases db o₁ o₂ blob with hsame | ⟨hnone, hins⟩
    · rw [hsame]; exact hinv
    · rw [hins]
      unfold UniqueIds at *
      simp only [List.map_append, List.map_cons, List.map_nil]
      rw [List.nodup_append]
      refine ⟨hinv, List.nodup_singleton _, ?_⟩
      intro a ha hb
      rw [List.mem_singleton] at hb
      subst hb
      exact not_mem_ids_of_find?_none _ db.blobstore hnone ha
  · exact UniqueIds_Update db o₁ blob.ID blob rfl hinv
  · rcases UpdatePartialBlob_cases db o₁ o₂ blob with ⟨hsame, _⟩ | ⟨item, hid, hupd⟩
    · rw [hsame]; exact hinv
    · rw [hupd]
      exact UniqueIds_Update db o₂ blob.ID item hid hinv
  · rw [GetBlob_fst]; exact hinv

/-- Witness: a store with the records "x" and "y", and a blob for "x". -/
theorem uniqueIds_preserved_witness :
    UniqueIds (CreateBlob { blobstore := [{ ID := "x", Data := .null }, { ID := "y", Data := .null }] }
        none none { ID := "x", Data := .object [("a", .number 1)] }).1
      ∧ UniqueIds (UpdateBlob { blobstore := [{ ID := "x", Data := .null }, { ID := "y", Data := .null }] }
        none { ID := "x", Data := .object [("a", .number 1)] }).1
      ∧ UniqueIds (UpdatePartialBlob
        { blobstore := [{ ID := "x", Data := .null }, { ID := "y", Data := .null }] }
        none none { ID := "x", Data := .object [("a", .number 1)] }).1
      ∧ UniqueIds (GetBlob { blobstore := [{ ID := "x", Data := .null }, { ID := "y", Data := .null }] }
        none "z").1 :=
  uniqueIds_preserved { blobstore := [{ ID := "x", Data := .null }, { ID := "y", Data := .null }] }
    none none { ID := "x", Data := .object [("a", .number 1)] } "z" (by decide)

/-- C10: for every store state, every blob B and every id j other than B.ID, the result
of GetBlob(j) is the same after CreateBlob(B), UpdateBlob(B) or UpdatePartialBlob(B) as
before the call, whether the call succeeded or failed. -/
theorem getBlob_other_id_unchanged (db : Database) (o₁ o₂ o : Outage) (B : Blob) (j : String)
    (hj : j ≠ B.ID) :
    (GetBlob (CreateBlob db o₁ o₂ B).1 o j).2 = (GetBlob db o j).2
      ∧ (GetBlob (UpdateBlob db o₁ B).1 o j).2 = (GetBlob db o j).2
      ∧ (GetBlob (UpdatePartialBlob db o₁ o₂ B).1 o j).2 = (GetBlob db o j).2 := by
  refine ⟨?_, ?_, ?_⟩
  · apply GetBlob_snd_congr
    rcases CreateBlob_cases db o₁ o₂ B with hsame | ⟨_, hins⟩
    · rw [hsame]
    · rw [hins]
      exact find?_append_singleton_other j B hj db.blobstore
  · apply GetBlob_snd_congr
    exact Update_find?_other db o₁ B.ID j B rfl hj
  · apply GetBlob_snd_congr
    rcases UpdatePartialBlob_cases db o₁ o₂ B with ⟨hsame, _⟩ | ⟨item, hid, hupd⟩
    · rw [hsame]
    · rw [hupd]
      exact Update_find?_other db o₂ B.ID j item hid hj

/-- Witness: writes for "x" seen from "y". -/
theorem getBlob_other_id_unchanged_witness :
    "y" ≠ "x"
      ∧ (GetBlob (CreateBlob { blobstore := [{ ID := "y", Data := .number 7 }] } none none
            { ID := "x", Data := .null }).1 none "y").2
          = (GetBlob { blobstore := [{ ID := "y", Data := .number 7 }] } none "y").2 :=
  ⟨by decide,
   (getBlob_other_id_unchanged { blobstore := [{ ID := "y", Data := .number 7 }] } none none none
      { ID := "x", Data := .null } "y" (by decide)).1⟩


/-! ## Blob store: the shallow merge -/

theorem Unmarshal_object_fresh (fields : Entries) (h : (keys fields).Nodup) :
    (Unmarshal (.object fields) (some [])).1 = some (decodedEntries fields) := by
  simp only [Unmarshal, Option.getD_some]
  rw [decodedFields_fresh fields [] (by simpa using h)]
  simp

theorem UpdatePartialBlob_objects (db : Database) (o₂ : Outage) (blob existing : Blob)
    (E P : Entries)
    (hexisting : db.blobstore.find? (fun b => b.ID = blob.ID) = some existing)
    (hE : existing.Data = .object E) (hP : blob.Data = .object P)
    (hEk : (keys E).Nodup) (hPk : (keys P).Nodup)
    (hEenc : (Value.object E).encodable = true) (hPenc : (Value.object P).encodable = true) :
    UpdatePartialBlob db none o₂ blob
      = ((Update db o₂ blob.ID
            { ID := blob.ID,
              Data := .object ((keys (decodedEntries P)).foldl
                (fun acc k => mapSet acc k (mapIndex (decodedEntries P) k)) (decodedEntries E)) }).1,
         .returned (Update db o₂ blob.ID
            { ID := blob.ID,
              Data := .object ((keys (decodedEntries P)).foldl
                (fun acc k => mapSet acc k (mapIndex (decodedEntries P) k)) (decodedEntries E)) }).2) := by
  unfold UpdatePartialBlob
  rw [GetBlob_eq_FindOne]
  unfold FindOne
  simp only [hexisting, hE, hP, Marshal, hEenc, hPenc, if_true]
  rw [Unmarshal_object_fresh E hEk, Unmarshal_object_fresh P hPk]
  simp only [Option.getD_some, rangeLoop_some, ofMap]

/-- The merge as the code performs it: for a stored mapping E and an incoming mapping P
(Go maps: each key occurs once), a successful UpdatePartialBlob leaves under the id a
mapping M with keys(M) = keys(E) ∪ keys(P), where M[k] is the decoded copy of P[k] for
every key k of P, taken whole, and the decoded copy of E[k] for every key k of E that is
not in P. -/
theorem UpdatePartialBlob_merge_decoded (db db' : Database) (o₁ o₂ : Outage)
    (blob existing : Blob) (E P : Entries)
    (hexisting : db.blobstore.find? (fun b => b.ID = blob.ID) = some existing)
    (hE : existing.Data = .object E) (hP : blob.Data = .object P)
    (hEk : (keys E).Nodup) (hPk : (keys P).Nodup)
    (hok : UpdatePartialBlob db o₁ o₂ blob = (db', .returned none)) :
    ∃ M : Entries,
      GetBlob db' none blob.ID = (db', .ok { ID := blob.ID, Data := .object M })
      ∧ (keys M).Nodup
      ∧ (∀ k : String, k ∈ keys M ↔ k ∈ keys E ∨ k ∈ keys P)
      ∧ (∀ k : String, k ∈ keys P → mapGet M k = (mapGet P k).map Value.decoded)
      ∧ (∀ k : String, k ∈ keys E → k ∉ keys P →
          mapGet M k = (mapGet E k).map Value.decoded) := by
  cases o₁ with
  | some d =>
    rw [UpdatePartialBlob_lookup_error db (some d) o₂ blob (.StoreError d) (by
      rw [GetBlob_eq_FindOne]; rfl)] at hok
    simp at hok
  | none =>
    by_cases hEenc : (Value.object E).encodable = true
    · by_cases hPenc : (Value.object P).encodable = true
      · rw [UpdatePartialBlob_objects db o₂ blob existing E P hexisting hE hP hEk hPk hEenc hPenc]
          at hok
        rcases Update_cases db o₂ blob.ID
            { ID := blob.ID,
              Data := .object ((keys (decodedEntries P)).foldl
                (fun acc k => mapSet acc k (mapIndex (decodedEntries P) k)) (decodedEntries E)) }
          with ⟨_, hne⟩ | ⟨_, hany, hupd⟩
        · simp only [Prod.mk.injEq, Outcome.returned.injEq] at hok
          exact absurd hok.2 hne
        · rw [hupd] at hok
          simp only [Prod.mk.injEq, and_true] at hok
          subst hok
          have hEk' : (keys (decodedEntries E)).Nodup := by
            rw [keys_decodedEntries]; exact hEk
          refine ⟨(keys (decodedEntries P)).foldl
              (fun acc k => mapSet acc k (mapIndex (decodedEntries P) k)) (decodedEntries E), ?_,
            nodup_keys_foldl_assign _ _ _ hEk', ?_, ?_, ?_⟩
          · rw [GetBlob_eq_FindOne]
            unfold FindOne
            simp only
            rw [find?_replaceFirst_same blob.ID
              { ID := blob.ID,
                Data := .object ((keys (decodedEntries P)).foldl
                  (fun acc k => mapSet acc k (mapIndex (decodedEntries P) k)) (decodedEntries E)) }
              rfl db.blobstore hany]
          · intro k
            rw [mem_keys_foldl_assign, keys_decodedEntries, keys_decodedEntries]
          · intro k hk
            have hk' : k ∈ keys (decodedEntries P) := by
              rw [keys_decodedEntries]; exact hk
            rw [mapGet_foldl_assign_of_mem _ _ _ k hk', mapIndex_of_mem_keys _ k hk',
              mapGet_decodedEntries]
          · intro k _ hk
            have hk' : k ∉ keys (decodedEntries P) := by
              rw [keys_decodedEntries]; exact hk
            rw [mapGet_foldl_assign_of_not_mem _ _ _ k hk', mapGet_decodedEntries]
      · exfalso
        unfold UpdatePartialBlob at hok
        rw [GetBlob_eq_FindOne] at hok
        unfold FindOne at hok
        simp [hexisting, hE, hP, Marshal, hEenc, hPenc] at hok
    · exfalso
      unfold UpdatePartialBlob at hok
      rw [GetBlob_eq_FindOne] at hok
      unfold FindOne at hok
      simp [hexisting, hE, Marshal, hEenc] at hok

/-- C1, the code at the failing input: the stored data of "x" is the mapping
{big: 9007199254740993} with an int64 value, the incoming data is {z: 1}. The call
returns nil, and the record it writes holds big = 9007199254740992: the key the update
does not mention has passed through the JSON copy of the stored data and is no longer
the stored value. The same happens to an incoming value: the int64 9007199254740993
sent under "n" is stored as 9007199254740992. On float64 data, as in
E = {a:1, b:2} and P = {b:3, c:4}, the merge gives {a:1, b:3, c:4}. -/
theorem updatePartialBlob_rounds_numbers :
    UpdatePartialBlob
        { blobstore := [{ ID := "x", Data := .object [("big", .int 9007199254740993)] }] }
        none none { ID := "x", Data := .object [("z", .number 1)] }
      = ({ blobstore :=
            [{ ID := "x", Data := .object [("big", .number 9007199254740992), ("z", .number 1)] }] },
         .returned none)
    ∧ mapGet [("big", .number 9007199254740992), ("z", .number 1)] "big"
        ≠ mapGet [("big", .int 9007199254740993)] "big"
    ∧ UpdatePartialBlob
        { blobstore := [{ ID := "x", Data := .object [("a", .number 1)] }] }
        none none { ID := "x", Data := .object [("n", .int 9007199254740993)] }
      = ({ blobstore :=
            [{ ID := "x", Data := .object [("a", .number 1), ("n", .number 9007199254740992)] }] },
         .returned none)
    ∧ mapGet [("a", .number 1), ("n", .number 9007199254740992)] "n"
        ≠ mapGet [("n", .int 9007199254740993)] "n"
    ∧ UpdatePartialBlob
        { blobstore := [{ ID := "x", Data := .object [("a", .number 1), ("b", .number 2)] }] }
        none none { ID := "x", Data := .object [("b", .number 3), ("c", .number 4)] }
      = ({ blobstore :=
            [{ ID := "x", Data := .object [("a", .number 1), ("b", .number 3), ("c", .number 4)] }] },
         .returned none) :=
  ⟨rfl, fun h => by simp [mapGet] at h, rfl, fun h => by simp [mapGet] at h, rfl⟩

/-! ## Blob store: the flatten step -/

/-- An encoding failure on the stored data or on the incoming data is returned, and
nothing is written. -/
theorem UpdatePartialBlob_marshal_error (db : Database) (o₂ : Outage) (blob existing : Blob)
    (hexisting : db.blobstore.find? (fun b => b.ID = blob.ID) = some existing)
    (henc : existing.Data.encodable = false ∨ blob.Data.encodable = false) :
    UpdatePartialBlob db none o₂ blob = (db, .returned (some .UnsupportedValue)) := by
  unfold UpdatePartialBlob
  rw [GetBlob_eq_FindOne]
  unfold FindOne
  simp only [hexisting, Marshal]
  by_cases h1 : existing.Data.encodable = true
  · rcases henc with h | h
    · rw [h1] at h; cases h
    · simp [h1, h]
  · simp [h1]

/-- C6, the code at the failing input: the stored data of "x" is the array [1], which
encodes to JSON but does not decode into a map. The decoding error is dropped: the call
returns nil and overwrites the array with the incoming keys alone. The same happens
when the incoming data is the array: the call returns nil after rewriting the record. -/
theorem updatePartialBlob_decode_error_dropped :
    Marshal (.array [.number 1]) = .ok (.array [.number 1])
      ∧ (Unmarshal (.array [.number 1]) (some [])).2 = some .UnmarshalType
      ∧ UpdatePartialBlob { blobstore := [{ ID := "x", Data := .array [.number 1] }] } none none
            { ID := "x", Data := .object [("a", .number 1)] }
          = ({ blobstore := [{ ID := "x", Data := .object [("a", .number 1)] }] }, .returned none)
      ∧ UpdatePartialBlob { blobstore := [{ ID := "x", Data := .object [("a", .number 1)] }] }
            none none { ID := "x", Data := .array [.number 1] }
          = ({ blobstore := [{ ID := "x", Data := .object [("a", .number 1)] }] }, .returned none) :=
  ⟨rfl, rfl, rfl, rfl⟩

end UploadService
